import Mathlib

/- Verification development for the predict repository (statiz_predict.py,
statiz_reader.py, predict_back.py). The definitions below are a shallow
embedding of the Python source: pure helpers become Lean functions, the JSON
cache becomes an association list, Python float values become exact rationals,
and Python exceptions become the error branch of Except. Each claim C1 to C10
is settled by a theorem about these definitions. -/

/- ===================== shared character / number utilities ================ -/

/-- Value of a list of ASCII digit characters, most significant first. -/
def digitsToNat (ds : List Char) : Nat :=
  ds.foldl (fun n c => 10 * n + ((Char.toNat c) - (Char.toNat '0'))) 0

/-- Embedding of the characters matched by the regex class backslash-s
(ASCII whitespace; exotic unicode whitespace is not modelled). -/
def isPySpace (c : Char) : Bool :=
  c = ' ' || c = '\t' || c = '\n' || c = '\r' || c = '\x0b' || c = '\x0c'

/-- Numeric value of the regex group digits[.digits]: the exact decimal
denoted by the matched text, as a rational. The source converts the text
with float(), whose IEEE behaviour (rounding, and saturation to inf for
magnitudes beyond the double range near 1.8e308) is not modelled here;
statements about these values therefore concern the denoted decimal and
never assert finiteness of the float the source computes. -/
def mkPercentVal (ip fp : List Char) : ℚ :=
  (digitsToNat ip : ℚ) + (digitsToNat fp : ℚ) / (10 : ℚ) ^ fp.length

/-- After the integer digit run, try to consume the optional regex group
(backslash-dot followed by one or more digits): returns the fraction digits
and the rest of the input. With no usable group the input is unchanged,
exactly as regex backtracking would leave it. -/
def fracAndRest (r : List Char) : List Char × List Char :=
  match r with
  | '.' :: rest =>
    let sp := rest.span Char.isDigit
    if sp.1.isEmpty then ([], r) else sp
  | _ => ([], r)

/-- Try to match the statiz_predict.py regex (digits(.digits)? spaces percent)
anchored at the start of the character list. Greedy matching needs no
backtracking for this pattern: shortening a digit run always leaves a digit
next, which can match neither dot, space nor the percent sign. -/
def matchPercentAt (cs : List Char) : Option ℚ :=
  let sp1 := cs.span Char.isDigit
  if sp1.1.isEmpty then none
  else
    let fr := fracAndRest sp1.2
    match fr.2.dropWhile isPySpace with
    | '%' :: _ => some (mkPercentVal sp1.1 fr.1)
    | _ => none

/-- re.search scans for the leftmost position where the pattern matches. -/
def extractPercentList : List Char → Option ℚ
  | [] => none
  | c :: rest =>
    match matchPercentAt (c :: rest) with
    | some q => some q
    | none => extractPercentList rest

/-- Embeds _extract_percent of statiz_predict.py: search the text for
digits(.digits)? spaces percent and return the decimal, else None. -/
def extract_percent (txt : String) : Option ℚ :=
  extractPercentList txt.toList

/-- Try to match the style regex (the literal width: then spaces, a decimal
and a percent sign) anchored at the start of the character list. -/
def matchStyleAt (cs : List Char) : Option ℚ :=
  match cs with
  | 'w' :: 'i' :: 'd' :: 't' :: 'h' :: ':' :: rest =>
    let r0 := rest.dropWhile isPySpace
    let sp1 := r0.span Char.isDigit
    if sp1.1.isEmpty then none
    else
      let fr := fracAndRest sp1.2
      match fr.2.dropWhile isPySpace with
      | '%' :: _ => some (mkPercentVal sp1.1 fr.1)
      | _ => none
  | _ => none

/-- Leftmost search for the style pattern. -/
def percentFromStyleList : List Char → Option ℚ
  | [] => none
  | c :: rest =>
    match matchStyleAt (c :: rest) with
    | some q => some q
    | none => percentFromStyleList rest

/-- Embeds _percent_from_style of statiz_predict.py. -/
def percent_from_style (style : String) : Option ℚ :=
  percentFromStyleList style.toList

/-- Embeds the Python expression a or b on two Optional[float] values:
None and 0.0 are falsy, so the right operand is returned whenever the left
is absent or zero. -/
def pyOrFloat (a b : Option ℚ) : Option ℚ :=
  match a with
  | some q => if q = 0 then b else some q
  | none => b

/-- Embeds the percent combination used at statiz_predict.py lines 313 to 314
and 391 to 392: extract from the element text, or-else from the style. -/
def percentTextThenStyle (txt style : String) : Option ℚ :=
  pyOrFloat (extract_percent txt) (percent_from_style style)

/- ===================== writer side: statiz_predict.py ===================== -/

/-- One match-prediction record as built by scrape_list_page_predictions and
_parse_single_prediction (the Python dict with keys s_no, url, left_team,
right_team, left_percent, right_percent, predict_text). -/
structure Row where
  s_no : String
  url : String
  left_team : Option String
  right_team : Option String
  left_percent : Option ℚ
  right_percent : Option ℚ
  predict_text : Option String
deriving DecidableEq

/-- Python truthiness of an Optional[str]: None and the empty string are
falsy, every other string is truthy. -/
def pyTruthyStr : Option String → Bool
  | none => false
  | some s => !(s == "")

/-- The completeness test used verbatim at statiz_predict.py lines 415 to 419
and 532 to 536: r.get of the team keys is used for truthiness (so None and
the empty string both fail), while the percent keys are compared with None. -/
def isCompleteRow (r : Row) : Bool :=
  pyTruthyStr r.left_team && pyTruthyStr r.right_team
    && r.left_percent.isSome && r.right_percent.isSome

/-- A cache entry as written by the Python code: a ts string and a data list. -/
structure PredEntry where
  ts : String
  data : List Row
deriving DecidableEq

/-- The writer-side cache document, keyed by strings. Python dict assignment
replaces the value of an existing key in place and appends a new key. -/
def setKey (c : List (String × PredEntry)) (k : String) (v : PredEntry) :
    List (String × PredEntry) :=
  match c with
  | [] => [(k, v)]
  | (k0, v0) :: rest => if k0 = k then (k, v) :: rest else (k0, v0) :: setKey rest k v

/-- Python dict get on the writer-side cache. -/
def lookupKey (c : List (String × PredEntry)) (k : String) : Option PredEntry :=
  match c with
  | [] => none
  | (k0, v0) :: rest => if k0 = k then some v0 else lookupKey rest k

/-- Embeds the predlist persistence step shared, line for line, by
scrape_list_page_predictions (statiz_predict.py lines 415 to 425, applied to
uniq_rows) and fetch_all_predictions_fast (lines 532 to 544, applied to
merged): filter the complete rows and write them under the predlist key iff
use_cache holds, the complete list is non-empty (Python truthiness) and it
has the same length as the candidate list. Otherwise the cache document is
returned untouched (the Python code does not call _save_cache at all). -/
def persistCompleteList (use_cache : Bool) (cacheKey ts : String)
    (rows : List Row) (cache : List (String × PredEntry)) :
    List (String × PredEntry) :=
  let complete := rows.filter isCompleteRow
  if use_cache && !complete.isEmpty && (complete.length == rows.length)
  then setKey cache cacheKey { ts := ts, data := complete }
  else cache

/-- Field merge of the hybrid cycle (statiz_predict.py lines 527 to 529):
copy the detail value only when the listing value is None and the detail
value is not None. -/
def mergeField {α : Type} (b d : Option α) : Option α :=
  match b with
  | some v => some v
  | none => d

/-- Embeds the merge loop of fetch_all_predictions_fast (lines 522 to 530)
for one listing record base and the detail record dn found under the same
s_no: out starts as a copy of base and the five listed keys are filled from
dn only where base holds None. -/
def mergeRecord (base dn : Row) : Row :=
  { base with
    left_team := mergeField base.left_team dn.left_team
    right_team := mergeField base.right_team dn.right_team
    left_percent := mergeField base.left_percent dn.left_percent
    right_percent := mergeField base.right_percent dn.right_percent
    predict_text := mergeField base.predict_text dn.predict_text }

/-- The need test of fetch_all_predictions_fast (lines 505 to 510): a record
is sent to detail extraction when any of the five fields, including
predict_text, is None. -/
def needsDetail (r : Row) : Bool :=
  r.left_percent.isNone || r.right_percent.isNone || r.left_team.isNone
    || r.right_team.isNone || r.predict_text.isNone

/-- Embeds the need_snos collection loop of fetch_all_predictions_fast. -/
def need_snos (rows : List Row) : List String :=
  (rows.filter needsDetail).map (fun r => r.s_no)

/-- The seen-set deduplication loop of generate_s_no_list (lines 266 to 271),
keeping the first occurrence of each identifier. -/
def dedupAux : List String → List String → List String
  | [], _ => []
  | x :: xs, seen => if x ∈ seen then dedupAux xs seen else x :: dedupAux xs (x :: seen)

def dedupKeepFirst (l : List String) : List String := dedupAux l []

/-- The fallback ladder of generate_s_no_list: strategy (B) runs only when
(A) produced nothing, (C) only when (A) and (B) produced nothing, and (D)
only when all of (A), (B), (C) produced nothing, so the collected list is
the first non-empty strategy result. -/
def pickStrategy (a b c d : List String) : List String :=
  if a.isEmpty then if b.isEmpty then if c.isEmpty then d else c else b else a

/-- Embeds the tail of generate_s_no_list (statiz_predict.py lines 266 to
280) as a function of the four strategy results (the selenium driven
strategies themselves are outside the embeddable core): deduplicate the
first non-empty strategy result and raise TimeoutException when nothing was
collected. The cache write performed on success does not affect the returned
value and is elided here. -/
def generate_s_no_list (a b c d : List String) : Except String (List String) :=
  let uniq := dedupKeepFirst (pickStrategy a b c d)
  if uniq.isEmpty then Except.error "Could not extract s_no from STATIZ"
  else Except.ok uniq

/- ===================== python string primitives ========================== -/

/- The core Lean String functions splitOn, startsWith, trim and replace are
compiled code that the kernel cannot evaluate, so the Python string
operations used by the repository are embedded over character lists. -/

/-- Python str.split with a one-character separator: splitting the empty
string gives one empty field, exactly as in Python. -/
def splitChar (sep : Char) : List Char → List (List Char)
  | [] => [[]]
  | c :: rest =>
    let r := splitChar sep rest
    if c = sep then [] :: r
    else
      match r with
      | [] => [[c]]
      | g :: gs => (c :: g) :: gs

/-- Python key.split(sep) for the string type. -/
def pySplitOn (s : String) (sep : Char) : List String :=
  (splitChar sep s.toList).map List.asString

/-- List version of Python str.startswith. -/
def isPrefixList : List Char → List Char → Bool
  | [], _ => true
  | _ :: _, [] => false
  | p :: ps, c :: cs => p = c && isPrefixList ps cs

/-- Python s.startswith(pre). -/
def pyStartsWith (s pre : String) : Bool :=
  isPrefixList pre.toList s.toList

/-- Python str.strip() restricted to ASCII whitespace. -/
def stripList (cs : List Char) : List Char :=
  ((cs.dropWhile isPySpace).reverse.dropWhile isPySpace).reverse

/-- Helper for the exponent part of the Python float() grammar: optional
sign then at least one digit; on failure the flag is false. -/
def parseExpPart (cs : List Char) : Bool × Int × List Char :=
  let p :=
    match cs with
    | '-' :: rest => (true, rest)
    | '+' :: rest => (false, rest)
    | _ => (false, cs)
  let sp := p.2.span Char.isDigit
  if sp.1.isEmpty then (false, 0, cs)
  else (true, if p.1 then -((digitsToNat sp.1 : Int)) else (digitsToNat sp.1 : Int), sp.2)

/-- Embedding of Python float(str) on a character list: optional sign,
digits with an optional decimal point (at least one digit overall) and an
optional exponent, the whole input consumed. The inf, nan and underscore
forms accepted by Python never arise in this repository and are not
modelled. -/
def applyExponent (mant : ℚ) (rest : List Char) : Option ℚ :=
  let ex := parseExpPart rest
  if ex.1 && ex.2.2.isEmpty then
    some (if 0 ≤ ex.2.1 then mant * (10 : ℚ) ^ ex.2.1.toNat else mant / (10 : ℚ) ^ (-ex.2.1).toNat)
  else none

def pyFloatList (s : List Char) : Option ℚ :=
  let cs := stripList s
  let p :=
    match cs with
    | '-' :: rest => (true, rest)
    | '+' :: rest => (false, rest)
    | _ => (false, cs)
  let sp1 := p.2.span Char.isDigit
  let fr :=
    match sp1.2 with
    | '.' :: rest => rest.span Char.isDigit
    | _ => ([], sp1.2)
  if sp1.1.isEmpty && fr.1.isEmpty then none
  else
    let mant : ℚ := mkPercentVal sp1.1 fr.1
    let mant := if p.1 then -mant else mant
    match fr.2 with
    | [] => some mant
    | 'e' :: rest => applyExponent mant rest
    | 'E' :: rest => applyExponent mant rest
    | _ => none

/-- Embedding of Python int(str): strip, optional sign, one or more digits
(the underscore grouping form is not modelled). -/
def parseIntPy (s : String) : Option Int :=
  let cs := stripList s.toList
  let p :=
    match cs with
    | '-' :: rest => (true, rest)
    | '+' :: rest => (false, rest)
    | _ => (false, cs)
  if !p.2.isEmpty && p.2.all Char.isDigit then
    some (if p.1 then -((digitsToNat p.2 : Int)) else (digitsToNat p.2 : Int))
  else none

/- ===================== reader side: statiz_reader.py ===================== -/

/-- JSON values as loaded by json.load: the reader functions are defined on
arbitrary documents, exactly like the Python code. -/
inductive JVal where
  | jnull : JVal
  | jbool (b : Bool) : JVal
  | jnum (n : Int) : JVal
  | jstr (s : String) : JVal
  | jarr (xs : List JVal) : JVal
  | jobj (kvs : List (String × JVal)) : JVal

/-- Python truthiness of a JSON value. -/
def jTruthy : JVal → Bool
  | .jnull => false
  | .jbool b => b
  | .jnum n => !(n == 0)
  | .jstr s => !(s == "")
  | .jarr xs => !xs.isEmpty
  | .jobj kvs => !kvs.isEmpty

/-- Python str() of a JSON value, used by the f-string that builds a pred
key from an element of the s_nos list. The repr of a nested container is
not modelled (such an interpolation never produces a matching key in any
statement below). -/
def toPyStr : JVal → String
  | .jstr s => s
  | .jnum n => toString n
  | .jbool b => if b then "True" else "False"
  | .jnull => "None"
  | .jarr _ => "[unmodeled list repr]"
  | .jobj _ => "[unmodeled dict repr]"

/-- The loaded cache document: a JSON object, keys in insertion order. -/
abbrev RCache := List (String × JVal)

/-- Python dict get (keys of a JSON object are unique). -/
def assocGet {α : Type} (l : List (String × α)) (k : String) : Option α :=
  match l with
  | [] => none
  | (k0, v) :: rest => if k0 = k then some v else assocGet rest k

/-- Embeds _parse_pred_key_date of statiz_reader.py: keys of the pred,
predlist and s_nos namespaces yield their second colon-separated part. -/
def parse_pred_key_date (key : String) : Option String :=
  if pyStartsWith key "pred:" || pyStartsWith key "predlist:" || pyStartsWith key "s_nos:" then
    let parts := pySplitOn key ':'
    if parts.length ≥ 2 then some (parts.getD 1 "") else none
  else none

/-- Days per month with the Gregorian leap rule, as validated by
datetime(year, month, day). -/
def daysInMonth (y m : Nat) : Nat :=
  if m = 2 then (if (y % 4 = 0 && !(y % 100 = 0)) || y % 400 = 0 then 29 else 28)
  else if m = 4 || m = 6 || m = 9 || m = 11 then 30 else 31

/-- Embeds datetime.strptime(s, Y-m-d): exactly four year digits, one or two
month digits in 1..12, one or two day digits valid for the month, nothing
left over, year at least 1. -/
def strptimeYMD (s : String) : Option (Nat × Nat × Nat) :=
  match pySplitOn s '-' with
  | [ys, ms, ds] =>
    let yc := ys.toList
    let mc := ms.toList
    let dc := ds.toList
    if (yc.length == 4) && yc.all Char.isDigit
        && (1 ≤ mc.length && mc.length ≤ 2) && mc.all Char.isDigit
        && (1 ≤ dc.length && dc.length ≤ 2) && dc.all Char.isDigit then
      let y := digitsToNat yc
      let m := digitsToNat mc
      let d := digitsToNat dc
      if (1 ≤ y) && (1 ≤ m && m ≤ 12) && (1 ≤ d && d ≤ daysInMonth y m) then
        some (y, m, d)
      else none
    else none
  | _ => none

/-- Order-preserving encoding of a calendar date (months and days are below
one hundred, so this respects the lexicographic order of valid dates). -/
def dateEnc (t : Nat × Nat × Nat) : Int :=
  (t.1 * 10000 + t.2.1 * 100 + t.2.2 : Nat)

/-- The sort key of datetime.min, produced for every unparseable token. -/
def minDateKey : Int := dateEnc (1, 1, 1)

/-- Embeds the to_dt sort key of _available_dates: parseable tokens map to
their date, unparseable tokens to datetime.min. -/
def to_dt_key (s : String) : Int :=
  match strptimeYMD s with
  | some t => dateEnc t
  | none => minDateKey

/-- Stable ascending insertion for the embedding of Python sorted: a new
element goes after every element whose key is not greater. -/
def insertByKey {α : Type} (key : α → Int) (x : α) : List α → List α
  | [] => [x]
  | y :: ys => if key x < key y then x :: y :: ys else y :: insertByKey key x ys

/-- Stable ascending sort by an integer key. Python sorted is also stable,
and a stable ascending sort is unique, so the two agree element for
element. -/
def sortByKey {α : Type} (key : α → Int) (l : List α) : List α :=
  l.foldl (fun acc x => insertByKey key x acc) []

/-- The truthiness guard of _available_dates (statiz_reader.py lines 113 to
114): a token is added only when it is truthy, so both None and the empty
string (from keys like predlist: or pred::7) are ignored. -/
def addDateToken (acc : List String) (d : Option String) : List String :=
  match d with
  | some s => if s == "" then acc else (if s ∈ acc then acc else acc ++ [s])
  | none => acc

/-- The date tokens of the cache keys, first occurrence order, empty and
missing tokens filtered out by the if d: guard. The Python code collects
them into a set whose iteration order is unspecified; the order only
influences which tie is broken last and no statement below depends on it. -/
def collectDates (c : RCache) : List String :=
  c.foldl (fun acc kv => addDateToken acc (parse_pred_key_date kv.1)) []

/-- Embeds _available_dates of statiz_reader.py: the distinct date tokens
sorted by to_dt, an unparseable token sorting as datetime.min. -/
def available_dates (c : RCache) : List String :=
  sortByKey to_dt_key (collectDates c)

/-- Embeds _pick_latest_date: the last entry of the sorted date list. -/
def pick_latest_date (c : RCache) : Option String :=
  (available_dates c).getLast?

/-- Embeds _rows_from_predlist. A truthy non-dict entry makes the Python
code call .get on it, which raises AttributeError; that exception is the
error branch here. -/
def rows_from_predlist (c : RCache) (d : String) : Except String (List JVal) :=
  match assocGet c ("predlist:" ++ d) with
  | none => Except.ok []
  | some item =>
    if jTruthy item then
      match item with
      | .jobj kvs =>
        match assocGet kvs "data" with
        | some (.jarr xs) => Except.ok xs
        | _ => Except.ok []
      | _ => Except.error "AttributeError"
    else Except.ok []

/-- Embeds _rows_from_pred_snos: first the s_nos driven collection, then the
pred prefix scan sorted by the numeric s_no segment (0 when unparseable). -/
def rows_from_pred_snos (c : RCache) (d : String) : List JVal :=
  let snosResults : List JVal :=
    match assocGet c ("s_nos:" ++ d) with
    | some (.jobj kvs) =>
      match assocGet kvs "data" with
      | some (.jarr xs) =>
        xs.foldl
          (fun acc x =>
            match assocGet c ("pred:" ++ d ++ ":" ++ toPyStr x) with
            | some (.jobj kvs2) =>
              match assocGet kvs2 "data" with
              | some (.jobj row) => acc ++ [JVal.jobj row]
              | _ => acc
            | _ => acc)
          []
      | _ => []
    | _ => []
  if !snosResults.isEmpty then snosResults
  else
    let collected : List (Int × JVal) :=
      c.foldl
        (fun acc kv =>
          if pyStartsWith kv.1 ("pred:" ++ d ++ ":") then
            match kv.2 with
            | .jobj kvs =>
              match assocGet kvs "data" with
              | some (.jobj row) =>
                let sno :=
                  match parseIntPy ((pySplitOn kv.1 ':').getD 2 "") with
                  | some n => n
                  | none => 0
                acc ++ [(sno, JVal.jobj row)]
              | _ => acc
            | _ => acc
          else acc)
        []
    (sortByKey (fun p => p.1) collected).map (fun p => p.2)

/-- Embeds get_pred_rows_for_date: the pred and s_nos format first, the
predlist format as fallback. -/
def get_pred_rows_for_date (c : RCache) (d : String) : Except String (List JVal) :=
  let rows := rows_from_pred_snos c d
  if !rows.isEmpty then Except.ok rows else rows_from_predlist c d

/-- Embeds get_today_predlist of statiz_reader.py. The Python function reads
the clock through _today_kst_str; the civil date it produces is the today
parameter here. -/
def get_today_predlist (today : String) (c : RCache) : Except String (List JVal) :=
  match get_pred_rows_for_date c today with
  | Except.error e => Except.error e
  | Except.ok rows =>
    if !rows.isEmpty then Except.ok rows
    else
      match pick_latest_date c with
      | some latest => get_pred_rows_for_date c latest
      | none => Except.ok []

/- ===================== secondary source: predict_back.py ================= -/

/-- One MatchBox block of the snapshot document, as seen after the CSS
selects of _extract_naver_block: the text of the name nodes and of the
percent number nodes (get_text with strip already applied). -/
structure MatchBox where
  teams : List String
  percents : List String
deriving DecidableEq

/-- The fan-vote record built by _extract_naver_block. -/
structure FanVote where
  team1 : String
  team2 : String
  percent1 : ℚ
  percent2 : ℚ
deriving DecidableEq

/-- The guard of _extract_naver_block: a box is usable only with exactly two
team nodes and exactly two percent nodes. -/
def boxPair (box : MatchBox) : Option (String × String × String × String) :=
  match box.teams, box.percents with
  | [t1, t2], [p1, p2] => some (t1, t2, p1, p2)
  | _, _ => none

/-- Embeds float(p.replace(percent-sign, empty).strip()) as used on the
percent text of a matching box; None is the ValueError case. -/
def parsePercentPy (p : String) : Option ℚ :=
  pyFloatList (p.toList.filter (fun c => !(c = '%')))

/-- Embeds _extract_naver_block of predict_back.py: walk the match boxes in
document order, skip every box without exactly two team and two percent
nodes, and on the first box containing the sought team convert both percent
texts with float(), whose ValueError propagates (error branch). -/
def extract_naver_block (team : String) : List MatchBox → Except String (Option FanVote)
  | [] => Except.ok none
  | box :: rest =>
    match boxPair box with
    | some (t1, t2, p1, p2) =>
      if team = t1 || team = t2 then
        match parsePercentPy p1, parsePercentPy p2 with
        | some q1, some q2 => Except.ok (some { team1 := t1, team2 := t2, percent1 := q1, percent2 := q2 })
        | _, _ => Except.error "ValueError: could not convert string to float"
      else extract_naver_block team rest
    | none => extract_naver_block team rest

/-- The snapshot file as the function observes it: existence, modification
time, and the parsed box list of its current contents. -/
structure SnapshotFile where
  present : Bool
  mtime : Nat
  boxes : List MatchBox
deriving DecidableEq

/-- Embeds parse_naver_vote_from_file of predict_back.py: a missing file
gives None, otherwise the file is opened and reparsed on this very call;
the function keeps no state between calls. -/
def parse_naver_vote_from_file (team : String) (fs : SnapshotFile) :
    Except String (Option FanVote) :=
  if fs.present then extract_naver_block team fs.boxes
  else Except.ok none

/- ===================== concrete fixtures for the claims ================== -/

/-- A listing row that is complete under the completeness predicate (the
listing pass always leaves predict_text as None, see statiz_predict.py line
404). -/
def rowCompleteA : Row :=
  { s_no := "101", url := "u", left_team := some "LG", right_team := some "KT",
    left_percent := some 60, right_percent := some 40, predict_text := none }

/-- A listing row missing its right percent. -/
def rowIncompleteB : Row :=
  { s_no := "102", url := "u", left_team := some "NC", right_team := some "SSG",
    left_percent := some 55, right_percent := none, predict_text := none }

/-- Listing record of the no-overwrite example of the spec: leftPercent 55,
rightPercent absent. -/
def rowMergeBase : Row :=
  { s_no := "7", url := "u", left_team := some "LG", right_team := none,
    left_percent := some 55, right_percent := none, predict_text := none }

/-- Detail record disagreeing on leftPercent and supplying rightPercent. -/
def rowMergeDetail : Row :=
  { s_no := "7", url := "u", left_team := some "LG", right_team := some "KT",
    left_percent := some 40, right_percent := some 45, predict_text := some "txt" }

/-- Reader cache holding only a key whose date token is unparseable, with a
stored detail row under it. -/
def cacheGarbage : RCache :=
  [("pred:garbage:5", JVal.jobj [("ts", JVal.jstr "t"), ("data", JVal.jobj [("left_team", JVal.jstr "A")])])]

/-- Reader cache with two parseable predlist dates and no entry for the day
in between. -/
def cacheTwoDates : RCache :=
  [("predlist:2024-03-01", JVal.jobj [("ts", JVal.jstr "t"), ("data", JVal.jarr [JVal.jstr "r1"])]),
   ("predlist:2024-03-03", JVal.jobj [("ts", JVal.jstr "t"), ("data", JVal.jarr [JVal.jstr "r3"])])]

/-- Snapshot with one well-formed box, percentages 60 and 40. -/
def snapA : SnapshotFile :=
  { present := true, mtime := 100,
    boxes := [{ teams := ["한화", "LG"], percents := ["60", "40"] }] }

/-- Snapshot with the same modification time as snapA but changed contents. -/
def snapB : SnapshotFile :=
  { present := true, mtime := 100,
    boxes := [{ teams := ["한화", "LG"], percents := ["30", "70"] }] }

/-- Snapshot whose only matching box has an unparseable percent text. -/
def snapBad : List MatchBox :=
  [{ teams := ["한화", "LG"], percents := ["abc", "50"] }]

/-- A row whose percents are an explicit 0.0, used to check the completeness
predicate on present zeroes. -/
def rowZeroPercent : Row :=
  { s_no := "1", url := "u", left_team := some "A", right_team := some "B",
    left_percent := some 0, right_percent := some 0, predict_text := none }

/-- A snapshot equal to snapB except for its modification time. -/
def snapBLater : SnapshotFile :=
  { present := true, mtime := 999, boxes := snapB.boxes }

/- ===================== helper lemmas ===================================== -/

theorem lookupKey_setKey (c : List (String × PredEntry)) (k : String) (v : PredEntry) :
    lookupKey (setKey c k v) k = some v := by
  induction c with
  | nil => simp [setKey, lookupKey]
  | cons kv rest ih =>
    obtain ⟨k0, v0⟩ := kv
    by_cases hk : k0 = k
    · simp [setKey, lookupKey, hk]
    · simp [setKey, lookupKey, hk, ih]

theorem length_filter_lt_of_mem {α : Type} (p : α → Bool) (l : List α) (a : α)
    (ha : a ∈ l) (hpa : p a = false) : (l.filter p).length < l.length := by
  induction l with
  | nil => simp at ha
  | cons x xs ih =>
    rcases List.mem_cons.mp ha with rfl | ha2
    · simp only [List.filter_cons, hpa, if_neg Bool.false_ne_true]
      exact Nat.lt_succ_of_le (List.length_filter_le _ _)
    · cases hx : p x
      · simp only [List.filter_cons, hx, if_neg Bool.false_ne_true]
        exact Nat.lt_succ_of_le (List.length_filter_le _ _)
      · simp only [List.filter_cons, hx, if_pos rfl, List.length_cons]
        exact Nat.succ_lt_succ (ih ha2)

theorem mem_insertByKey {α : Type} (key : α → Int) (x a : α) (l : List α) :
    a ∈ insertByKey key x l ↔ a = x ∨ a ∈ l := by
  induction l with
  | nil => simp [insertByKey]
  | cons y ys ih =>
    simp only [insertByKey]
    by_cases hlt : key x < key y
    · rw [if_pos hlt]
      simp [List.mem_cons]
    · rw [if_neg hlt]
      simp only [List.mem_cons, ih]
      tauto

theorem pairwise_insertByKey {α : Type} (key : α → Int) (x : α) (l : List α)
    (h : l.Pairwise (fun p q => key p ≤ key q)) :
    (insertByKey key x l).Pairwise (fun p q => key p ≤ key q) := by
  induction l with
  | nil => simp [insertByKey]
  | cons y ys ih =>
    rw [List.pairwise_cons] at h
    obtain ⟨hy, hys⟩ := h
    simp only [insertByKey]
    by_cases hlt : key x < key y
    · rw [if_pos hlt]
      refine List.Pairwise.cons ?_ (List.Pairwise.cons hy hys)
      intro z hz
      rcases List.mem_cons.mp hz with rfl | hz2
      · exact le_of_lt hlt
      · exact le_trans (le_of_lt hlt) (hy z hz2)
    · rw [if_neg hlt]
      refine List.Pairwise.cons ?_ (ih hys)
      intro z hz
      rcases (mem_insertByKey key x z ys).mp hz with rfl | hz2
      · exact le_of_not_lt hlt
      · exact hy z hz2

theorem mem_foldl_insertByKey {α : Type} (key : α → Int) (l : List α) :
    ∀ (acc : List α) (a : α),
      a ∈ l.foldl (fun acc x => insertByKey key x acc) acc ↔ a ∈ acc ∨ a ∈ l := by
  induction l with
  | nil => intro acc a; simp
  | cons x xs ih =>
    intro acc a
    simp only [List.foldl_cons]
    rw [ih, mem_insertByKey]
    simp only [List.mem_cons]
    tauto

theorem pairwise_foldl_insertByKey {α : Type} (key : α → Int) (l : List α) :
    ∀ acc : List α, acc.Pairwise (fun p q => key p ≤ key q) →
      (l.foldl (fun acc x => insertByKey key x acc) acc).Pairwise (fun p q => key p ≤ key q) := by
  induction l with
  | nil => intro acc hacc; simpa using hacc
  | cons x xs ih =>
    intro acc hacc
    simp only [List.foldl_cons]
    exact ih _ (pairwise_insertByKey key x acc hacc)

theorem mem_sortByKey {α : Type} (key : α → Int) (l : List α) (a : α) :
    a ∈ sortByKey key l ↔ a ∈ l := by
  unfold sortByKey
  rw [mem_foldl_insertByKey]
  simp

theorem pairwise_sortByKey {α : Type} (key : α → Int) (l : List α) :
    (sortByKey key l).Pairwise (fun p q => key p ≤ key q) :=
  pairwise_foldl_insertByKey key l [] List.Pairwise.nil

theorem mem_of_getLast?_eq {α : Type} : ∀ (l : List α) (a : α), l.getLast? = some a → a ∈ l := by
  intro l
  induction l with
  | nil => intro a h; simp at h
  | cons x xs ih =>
    intro a h
    cases xs with
    | nil =>
      simp only [List.getLast?_singleton, Option.some.injEq] at h
      subst h
      exact List.mem_singleton.mpr rfl
    | cons y ys =>
      rw [List.getLast?_cons_cons] at h
      exact List.mem_cons_of_mem _ (ih a h)

theorem key_le_getLast {α : Type} (key : α → Int) :
    ∀ (l : List α), l.Pairwise (fun p q => key p ≤ key q) →
      ∀ a ∈ l, ∀ z, l.getLast? = some z → key a ≤ key z := by
  intro l
  induction l with
  | nil => intro _ a ha; simp at ha
  | cons x xs ih =>
    intro hp a ha z hz
    rw [List.pairwise_cons] at hp
    obtain ⟨hx, hxs⟩ := hp
    cases xs with
    | nil =>
      simp only [List.getLast?_singleton, Option.some.injEq] at hz
      subst hz
      rcases List.mem_singleton.mp ha with rfl
      exact le_refl _
    | cons y ys =>
      rw [List.getLast?_cons_cons] at hz
      rcases List.mem_cons.mp ha with rfl | ha2
      · exact hx z (mem_of_getLast?_eq _ z hz)
      · exact ih hxs a ha2 z hz

theorem to_dt_key_of_unparseable (s : String) (h : strptimeYMD s = none) :
    to_dt_key s = minDateKey := by
  simp [to_dt_key, h]

theorem mem_addDateToken_ne_empty (acc : List String) (o : Option String)
    (hacc : ∀ x ∈ acc, ¬(x = "")) : ∀ x ∈ addDateToken acc o, ¬(x = "") := by
  intro x hx
  cases o with
  | none => exact hacc x hx
  | some s =>
    simp only [addDateToken] at hx
    by_cases hs : s == ""
    · rw [if_pos hs] at hx
      exact hacc x hx
    · rw [if_neg hs] at hx
      by_cases hmem : s ∈ acc
      · rw [if_pos hmem] at hx
        exact hacc x hx
      · rw [if_neg hmem] at hx
        rcases List.mem_append.mp hx with h | h
        · exact hacc x h
        · rw [List.mem_singleton] at h
          subst h
          exact fun h0 => hs (beq_iff_eq.mpr h0)

theorem foldl_addDateToken_ne_empty :
    ∀ (c : RCache) (acc : List String), (∀ x ∈ acc, ¬(x = "")) →
      ∀ x ∈ c.foldl (fun acc kv => addDateToken acc (parse_pred_key_date kv.1)) acc,
        ¬(x = "") := by
  intro c
  induction c with
  | nil => intro acc hacc; simpa using hacc
  | cons kv rest ih =>
    intro acc hacc
    simp only [List.foldl_cons]
    exact ih _ (mem_addDateToken_ne_empty acc _ hacc)

theorem collectDates_ne_empty (c : RCache) : ∀ x ∈ collectDates c, ¬(x = "") :=
  foldl_addDateToken_ne_empty c [] (by intro x hx; simp at hx)

theorem mkPercentVal_nonneg (ip fp : List Char) : 0 ≤ mkPercentVal ip fp := by
  unfold mkPercentVal
  have h1 : (0 : ℚ) ≤ (digitsToNat ip : ℚ) := Nat.cast_nonneg _
  have h2 : (0 : ℚ) ≤ (digitsToNat fp : ℚ) / (10 : ℚ) ^ fp.length :=
    div_nonneg (Nat.cast_nonneg _) (by positivity)
  linarith

theorem matchPercentAt_nonneg (cs : List Char) (q : ℚ)
    (h : matchPercentAt cs = some q) : 0 ≤ q := by
  unfold matchPercentAt at h
  dsimp only at h
  split at h
  · exact absurd h (by simp)
  · split at h
    · rw [Option.some.injEq] at h
      subst h
      exact mkPercentVal_nonneg _ _
    · exact absurd h (by simp)

theorem extractPercentList_nonneg :
    ∀ (cs : List Char) (q : ℚ), extractPercentList cs = some q → 0 ≤ q := by
  intro cs
  induction cs with
  | nil => intro q h; simp [extractPercentList] at h
  | cons c rest ih =>
    intro q h
    rw [extractPercentList] at h
    cases hm : matchPercentAt (c :: rest) with
    | some q2 =>
      rw [hm, Option.some.injEq] at h
      subst h
      exact matchPercentAt_nonneg _ _ hm
    | none =>
      rw [hm] at h
      exact ih q h

theorem matchStyleAt_nonneg (cs : List Char) (q : ℚ)
    (h : matchStyleAt cs = some q) : 0 ≤ q := by
  unfold matchStyleAt at h
  split at h
  · dsimp only at h
    split at h
    · exact absurd h (by simp)
    · split at h
      · rw [Option.some.injEq] at h
        subst h
        exact mkPercentVal_nonneg _ _
      · exact absurd h (by simp)
  · exact absurd h (by simp)

theorem percentFromStyleList_nonneg :
    ∀ (cs : List Char) (q : ℚ), percentFromStyleList cs = some q → 0 ≤ q := by
  intro cs
  induction cs with
  | nil => intro q h; simp [percentFromStyleList] at h
  | cons c rest ih =>
    intro q h
    rw [percentFromStyleList] at h
    cases hm : matchStyleAt (c :: rest) with
    | some q2 =>
      rw [hm, Option.some.injEq] at h
      subst h
      exact matchStyleAt_nonneg _ _ hm
    | none =>
      rw [hm] at h
      exact ih q h

/- ===================== claims ============================================ -/

/-- C1: for every non-empty candidate set of match-prediction records (as
produced by the scraper, whose team fields are never the empty string), the
persistence step shared by fetch_all_predictions_fast and
scrape_list_page_predictions writes the predlist entry of the day iff every
record has left_team, right_team, left_percent and right_percent present;
with all records complete the candidate set itself is stored as the entry
data, and with at least one incomplete record the cache document is
returned unchanged. -/
theorem c1_completeness_gate (dayKey ts : String) (rows : List Row)
    (cache : List (String × PredEntry))
    (hne : rows ≠ [])
    (hteam : ∀ r ∈ rows, r.left_team ≠ some "" ∧ r.right_team ≠ some "") :
    ((∀ r ∈ rows, r.left_team ≠ none ∧ r.right_team ≠ none
        ∧ r.left_percent ≠ none ∧ r.right_percent ≠ none) →
      persistCompleteList true ("predlist:" ++ dayKey) ts rows cache
          = setKey cache ("predlist:" ++ dayKey) { ts := ts, data := rows }
        ∧ lookupKey (persistCompleteList true ("predlist:" ++ dayKey) ts rows cache)
            ("predlist:" ++ dayKey) = some { ts := ts, data := rows })
    ∧ ((∃ r ∈ rows, r.left_team = none ∨ r.right_team = none
        ∨ r.left_percent = none ∨ r.right_percent = none) →
      persistCompleteList true ("predlist:" ++ dayKey) ts rows cache = cache) := by
  constructor
  · intro hall
    have hfilter : rows.filter isCompleteRow = rows := by
      rw [List.filter_eq_self]
      intro r hr
      obtain ⟨h1, h2, h3, h4⟩ := hall r hr
      obtain ⟨ht1, ht2⟩ := hteam r hr
      cases hl : r.left_team with
      | none => exact absurd hl h1
      | some s =>
        cases hrteam : r.right_team with
        | none => exact absurd hrteam h2
        | some t =>
          rw [hl] at ht1
          rw [hrteam] at ht2
          have hs : ¬(s = "") := fun hs0 => ht1 (by rw [hs0])
          have hts : ¬(t = "") := fun hs0 => ht2 (by rw [hs0])
          simp [isCompleteRow, pyTruthyStr, hl, hrteam, hs, hts,
            Option.isSome_iff_ne_none, h3, h4]
    have hempty : rows.isEmpty = false := by
      cases rows with
      | nil => exact absurd rfl hne
      | cons x xs => rfl
    have hpersist : persistCompleteList true ("predlist:" ++ dayKey) ts rows cache
        = setKey cache ("predlist:" ++ dayKey) { ts := ts, data := rows } := by
      unfold persistCompleteList
      rw [hfilter]
      simp [hempty]
    exact ⟨hpersist, by rw [hpersist]; exact lookupKey_setKey _ _ _⟩
  · rintro ⟨r, hr, hbad⟩
    have hfalse : isCompleteRow r = false := by
      rcases hbad with h | h | h | h <;>
        simp [isCompleteRow, pyTruthyStr, h]
    have hlt := length_filter_lt_of_mem isCompleteRow rows r hr hfalse
    have hbeq : ((rows.filter isCompleteRow).length == rows.length) = false :=
      beq_eq_false_iff_ne.mpr (Nat.ne_of_lt hlt)
    unfold persistCompleteList
    simp [hbeq]

/-- C1 witness: a single complete row is persisted verbatim, and adding one
incomplete row leaves the empty cache untouched. -/
theorem c1_completeness_gate_witness :
    persistCompleteList true ("predlist:" ++ "2024-03-02") "TS" [rowCompleteA] []
        = [("predlist:" ++ "2024-03-02", { ts := "TS", data := [rowCompleteA] })]
    ∧ persistCompleteList true ("predlist:" ++ "2024-03-02") "TS"
        [rowCompleteA, rowIncompleteB] [] = [] := by
  constructor
  · have h := (c1_completeness_gate "2024-03-02" "TS" [rowCompleteA] []
      (List.cons_ne_nil _ _)
      (by intro r hr
          rw [List.mem_singleton] at hr
          subst hr
          exact ⟨by decide, by decide⟩)).1
      (by intro r hr
          rw [List.mem_singleton] at hr
          subst hr
          exact ⟨by decide, by decide, by decide, by decide⟩)
    exact h.1.trans rfl
  · exact (c1_completeness_gate "2024-03-02" "TS" [rowCompleteA, rowIncompleteB] []
      (List.cons_ne_nil _ _)
      (by intro r hr
          rcases List.mem_cons.mp hr with h | h
          · subst h; exact ⟨by decide, by decide⟩
          · rw [List.mem_singleton] at h
            subst h
            exact ⟨by decide, by decide⟩)).2
      ⟨rowIncompleteB, List.mem_cons_of_mem _ (List.mem_cons_self _ _),
        Or.inr (Or.inr (Or.inr rfl))⟩

/-- C2: the merge of the hybrid cycle copies a detail field into the merged
record only when the listing field is None and the detail field is present;
a field the listing populated survives unchanged even when the detail
disagrees, and a field absent on both sides stays absent (it equals the
detail value, which is None). -/
theorem c2_no_overwrite_merge (base dn : Row) :
    (∀ v, base.left_team = some v → (mergeRecord base dn).left_team = some v)
    ∧ (base.left_team = none → (mergeRecord base dn).left_team = dn.left_team)
    ∧ (∀ v, base.right_team = some v → (mergeRecord base dn).right_team = some v)
    ∧ (base.right_team = none → (mergeRecord base dn).right_team = dn.right_team)
    ∧ (∀ v, base.left_percent = some v → (mergeRecord base dn).left_percent = some v)
    ∧ (base.left_percent = none → (mergeRecord base dn).left_percent = dn.left_percent)
    ∧ (∀ v, base.right_percent = some v → (mergeRecord base dn).right_percent = some v)
    ∧ (base.right_percent = none → (mergeRecord base dn).right_percent = dn.right_percent)
    ∧ (∀ v, base.predict_text = some v → (mergeRecord base dn).predict_text = some v)
    ∧ (base.predict_text = none → (mergeRecord base dn).predict_text = dn.predict_text) := by
  refine ⟨?_, ?_, ?_, ?_, ?_, ?_, ?_, ?_, ?_, ?_⟩ <;>
    first
      | (intro v h; simp [mergeRecord, mergeField, h])
      | (intro h; simp [mergeRecord, mergeField, h])

/-- C2 witness: merging a detail with leftPercent 40 and rightPercent 45
into a listing with leftPercent 55 and rightPercent absent keeps 55 and
takes 45, the example of the spec. -/
theorem c2_no_overwrite_merge_witness :
    (mergeRecord rowMergeBase rowMergeDetail).left_percent = some 55
    ∧ (mergeRecord rowMergeBase rowMergeDetail).right_percent = some 45 := by
  obtain ⟨_, _, _, _, h5, _, _, h8, _, _⟩ := c2_no_overwrite_merge rowMergeBase rowMergeDetail
  exact ⟨h5 55 rfl, (h8 rfl).trans rfl⟩

/-- C7 counterexample: a record that the listing completed (teams and both
percents present; the listing always stores predict_text as None) is sent
to detail extraction anyway, because the need test also demands
predict_text; the claim would require need_snos of this singleton to be
empty. -/
theorem c7_counterexample :
    isCompleteRow rowCompleteA = true
    ∧ need_snos [rowCompleteA] = ["101"]
    ∧ need_snos [rowCompleteA] ≠ [] := by
  refine ⟨rfl, rfl, ?_⟩
  intro h
  exact List.cons_ne_nil _ _ (h.symm.trans rfl).symm

/-- C7 amended: detail extraction is invoked exactly for the records with
any of the five fields (the four completeness fields or predict_text)
absent; since the listing pass always leaves predict_text as None, every
listing record is sent to detail extraction, complete or not. -/
theorem c7_amended (rows : List Row) (h : ∀ r ∈ rows, r.predict_text = none) :
    need_snos rows = rows.map (fun r => r.s_no) := by
  unfold need_snos
  rw [List.filter_eq_self.mpr]
  intro r hr
  simp [needsDetail, h r hr]

/-- C7 witness: with predict_text always None, both the complete and the
incomplete row are scheduled for detail extraction. -/
theorem c7_amended_witness :
    need_snos [rowCompleteA, rowIncompleteB] = ["101", "102"] := by
  have h := c7_amended [rowCompleteA, rowIncompleteB]
    (by intro r hr
        rcases List.mem_cons.mp hr with h | h
        · subst h; rfl
        · rw [List.mem_singleton] at h; subst h; rfl)
  exact h.trans rfl

/-- C10: an empty merged set (hybrid cycle) or empty deduplicated row set
(listing scrape) is never persisted: the shared persistence step returns
the cache document unchanged, for any use_cache flag, key, timestamp and
prior cache contents. -/
theorem c10_empty_set_not_persisted (use_cache : Bool) (cacheKey ts : String)
    (cache : List (String × PredEntry)) :
    persistCompleteList use_cache cacheKey ts [] cache = cache := by
  simp [persistCompleteList]

/-- C3 counterexample: a cache whose only dated key carries an unparseable
date token. The claim requires such a key to be ignored, which would leave
no available date and force the empty list; the code instead selects the
unparseable token (it sorts as datetime.min) and returns its stored rows. -/
theorem c3_counterexample :
    strptimeYMD "garbage" = none
    ∧ get_pred_rows_for_date cacheGarbage "2025-01-01" = Except.ok []
    ∧ get_today_predlist "2025-01-01" cacheGarbage
        = Except.ok [JVal.jobj [("left_team", JVal.jstr "A")]]
    ∧ get_today_predlist "2025-01-01" cacheGarbage ≠ Except.ok [] := by
  refine ⟨rfl, rfl, rfl, fun h => ?_⟩
  have h2 : [JVal.jobj [("left_team", JVal.jstr "A")]] = ([] : List JVal) :=
    Except.ok.inj h
  exact List.cons_ne_nil _ _ h2

/-- C3 amended: get_today_predlist returns the rows of the today key when
they are non-empty (propagating the AttributeError a truthy non-object
predlist entry raises); otherwise it considers the non-empty date tokens of
the stored keys (an empty token, as in the keys predlist: or pred::7, is
falsy and ignored by the if d: guard) and returns the rows of the token
sorting last under to_dt, where an unparseable token sorts as datetime.min:
the selected token is a non-empty date token of some stored key, its key is
maximal, and it parses whenever any collected token parses to a date after
0001-01-01 (so non-empty unparseable tokens can only be selected when no
such token exists); with no collected tokens at all the result is the empty
list. -/
theorem c3_amended (today : String) (c : RCache) :
    (∀ rows, get_pred_rows_for_date c today = Except.ok rows → rows ≠ [] →
        get_today_predlist today c = Except.ok rows)
    ∧ (∀ e, get_pred_rows_for_date c today = Except.error e →
        get_today_predlist today c = Except.error e)
    ∧ (get_pred_rows_for_date c today = Except.ok [] → pick_latest_date c = none →
        get_today_predlist today c = Except.ok [])
    ∧ (∀ latest, get_pred_rows_for_date c today = Except.ok [] →
        pick_latest_date c = some latest →
        get_today_predlist today c = get_pred_rows_for_date c latest
        ∧ latest ∈ collectDates c
        ∧ (∀ d ∈ collectDates c, to_dt_key d ≤ to_dt_key latest)
        ∧ ((∃ d ∈ collectDates c, minDateKey < to_dt_key d) → strptimeYMD latest ≠ none)
        ∧ ¬(latest = "")) := by
  refine ⟨?_, ?_, ?_, ?_⟩
  · intro rows h hne
    have hempty : rows.isEmpty = false := by
      cases rows with
      | nil => exact absurd rfl hne
      | cons x xs => rfl
    simp [get_today_predlist, h, hempty]
  · intro e h
    simp [get_today_predlist, h]
  · intro h hnone
    simp [get_today_predlist, h, hnone]
  · intro latest h hlatest
    have hmem : latest ∈ collectDates c := by
      have hmem0 : latest ∈ available_dates c :=
        mem_of_getLast?_eq _ _ hlatest
      exact (mem_sortByKey to_dt_key (collectDates c) latest).mp hmem0
    have hmax : ∀ d ∈ collectDates c, to_dt_key d ≤ to_dt_key latest := by
      intro d hd
      exact key_le_getLast to_dt_key (available_dates c)
        (pairwise_sortByKey to_dt_key (collectDates c))
        d ((mem_sortByKey to_dt_key (collectDates c) d).mpr hd)
        latest hlatest
    refine ⟨by simp [get_today_predlist, h, hlatest], hmem, hmax, ?_,
      collectDates_ne_empty c latest hmem⟩
    rintro ⟨d, hd, hdk⟩ hnoneL
    have hlk : to_dt_key latest = minDateKey := to_dt_key_of_unparseable latest hnoneL
    have := hmax d hd
    rw [hlk] at this
    omega

/-- C3 witness: with predlist entries for 2024-03-01 and 2024-03-03 and an
empty 2024-03-02, the maximal parseable date 2024-03-03 is selected and its
rows are returned. -/
theorem c3_amended_witness :
    get_today_predlist "2024-03-02" cacheTwoDates = Except.ok [JVal.jstr "r3"]
    ∧ strptimeYMD "2024-03-03" ≠ none := by
  have h := (c3_amended "2024-03-02" cacheTwoDates).2.2.2 "2024-03-03" rfl rfl
  refine ⟨h.1.trans rfl, ?_⟩
  exact h.2.2.2.1 ⟨"2024-03-03", by decide, by decide⟩

/-- C4: on the failing input, the text parser does extract the explicit
0.0 from "0.0%", but the Python or-chain treats 0.0 as falsy: with no style
width the combined percent becomes None (absent) and with a style width the
style value overrides the parsed 0.0, while the completeness predicate
itself would have accepted a stored 0.0 as present. This contradicts the
claim (and spec sections 8 and 9), which require the parsed 0.0 to be kept;
the code is the slip, the or-idiom collapsing zero with absent. -/
theorem c4_zero_percent_collapsed :
    extract_percent "0.0%" = some 0
    ∧ percentTextThenStyle "0.0%" "" = none
    ∧ percentTextThenStyle "0%" "width: 45%" = some 45
    ∧ isCompleteRow rowZeroPercent = true := by
  have hd0 : digitsToNat ['0'] = 0 := rfl
  have hdnil : digitsToNat [] = 0 := rfl
  have hz : mkPercentVal ['0'] ['0'] = 0 := by
    simp [mkPercentVal, hd0]
  have hz2 : mkPercentVal ['0'] [] = 0 := by
    simp [mkPercentVal, hd0, hdnil]
  have h45 : mkPercentVal ['4', '5'] [] = 45 := by
    have hd : digitsToNat ['4', '5'] = 45 := rfl
    simp [mkPercentVal, hd, hdnil]
  refine ⟨?_, ?_, ?_, rfl⟩
  · have h : extract_percent "0.0%" = some (mkPercentVal ['0'] ['0']) := rfl
    rw [h, hz]
  · have h : percentTextThenStyle "0.0%" ""
        = pyOrFloat (some (mkPercentVal ['0'] ['0'])) none := rfl
    rw [h]
    simp [pyOrFloat, hz]
  · have h : percentTextThenStyle "0%" "width: 45%"
        = pyOrFloat (some (mkPercentVal ['0'] [])) (some (mkPercentVal ['4', '5'] [])) := rfl
    rw [h]
    simp [pyOrFloat, hz2, h45]

/-- C5 counterexample: with all four strategies empty, generate_s_no_list
raises TimeoutException rather than returning the empty list the claim
requires. -/
theorem c5_counterexample :
    generate_s_no_list [] [] [] [] = Except.error "Could not extract s_no from STATIZ"
    ∧ generate_s_no_list [] [] [] [] ≠ Except.ok [] := by
  refine ⟨rfl, fun h => ?_⟩
  have h2 : (Except.error "Could not extract s_no from STATIZ"
      : Except String (List String)) = Except.ok [] := h
  exact Except.noConfusion h2

/-- C5 amended: when every strategy yields zero identifiers the function
raises TimeoutException (the message of statiz_predict.py line 274) instead
of returning an empty set; when some strategy yields identifiers it returns
the first non-empty strategy result, first-seen deduplicated, without
raising. -/
theorem c5_amended (a b c d : List String) :
    (pickStrategy a b c d = [] →
        generate_s_no_list a b c d = Except.error "Could not extract s_no from STATIZ")
    ∧ (pickStrategy a b c d ≠ [] →
        generate_s_no_list a b c d
          = Except.ok (dedupKeepFirst (pickStrategy a b c d))) := by
  constructor
  · intro h
    simp [generate_s_no_list, h, dedupKeepFirst, dedupAux]
  · intro h
    have hne : dedupKeepFirst (pickStrategy a b c d) ≠ [] := by
      cases hp : pickStrategy a b c d with
      | nil => exact absurd hp h
      | cons x xs => simp [dedupKeepFirst, dedupAux]
    have hempty : (dedupKeepFirst (pickStrategy a b c d)).isEmpty = false := by
      cases hd : dedupKeepFirst (pickStrategy a b c d) with
      | nil => exact absurd hd hne
      | cons x xs => rfl
    simp [generate_s_no_list, hempty]

/-- C5 witness: a non-empty first strategy is deduplicated and returned, a
non-empty last strategy is returned, and the all-empty ladder raises. -/
theorem c5_amended_witness :
    generate_s_no_list ["1", "2", "1"] [] [] [] = Except.ok ["1", "2"]
    ∧ generate_s_no_list [] [] [] ["9"] = Except.ok ["9"]
    ∧ generate_s_no_list [] [] [] []
        = Except.error "Could not extract s_no from STATIZ" := by
  refine ⟨?_, ?_, ?_⟩
  · exact ((c5_amended ["1", "2", "1"] [] [] []).2 (by decide)).trans rfl
  · exact ((c5_amended [] [] [] ["9"]).2 (by decide)).trans rfl
  · exact (c5_amended [] [] [] []).1 rfl

/-- C6 counterexample: two snapshots with identical modification time but
different contents. The claim says the second call must serve the result
recorded at the last parse; the code keeps no such record and reparses, so
the two calls observably disagree. -/
theorem c6_counterexample :
    snapA.mtime = snapB.mtime
    ∧ parse_naver_vote_from_file "LG" snapA = Except.ok (some ⟨"한화", "LG", 60, 40⟩)
    ∧ parse_naver_vote_from_file "LG" snapB = Except.ok (some ⟨"한화", "LG", 30, 70⟩)
    ∧ parse_naver_vote_from_file "LG" snapB ≠ parse_naver_vote_from_file "LG" snapA := by
  have hdnil : digitsToNat [] = 0 := rfl
  have h60 : mkPercentVal ['6', '0'] [] = 60 := by
    have hd : digitsToNat ['6', '0'] = 60 := rfl
    simp [mkPercentVal, hd, hdnil]
  have h40 : mkPercentVal ['4', '0'] [] = 40 := by
    have hd : digitsToNat ['4', '0'] = 40 := rfl
    simp [mkPercentVal, hd, hdnil]
  have h30 : mkPercentVal ['3', '0'] [] = 30 := by
    have hd : digitsToNat ['3', '0'] = 30 := rfl
    simp [mkPercentVal, hd, hdnil]
  have h70 : mkPercentVal ['7', '0'] [] = 70 := by
    have hd : digitsToNat ['7', '0'] = 70 := rfl
    simp [mkPercentVal, hd, hdnil]
  have hA : parse_naver_vote_from_file "LG" snapA = Except.ok (some ⟨"한화", "LG", 60, 40⟩) := by
    have h : parse_naver_vote_from_file "LG" snapA
        = Except.ok (some ⟨"한화", "LG", mkPercentVal ['6', '0'] [], mkPercentVal ['4', '0'] []⟩) := rfl
    rw [h, h60, h40]
  have hB : parse_naver_vote_from_file "LG" snapB = Except.ok (some ⟨"한화", "LG", 30, 70⟩) := by
    have h : parse_naver_vote_from_file "LG" snapB
        = Except.ok (some ⟨"한화", "LG", mkPercentVal ['3', '0'] [], mkPercentVal ['7', '0'] []⟩) := rfl
    rw [h, h30, h70]
  refine ⟨rfl, hA, hB, ?_⟩
  intro h
  rw [hA, hB] at h
  have h2 := Option.some.inj (Except.ok.inj h)
  rw [FanVote.mk.injEq] at h2
  have h3 : (30 : ℚ) = 60 := h2.2.2.1
  norm_num at h3

/-- C6 amended: the fan-vote file lookup keeps no state and performs no
modification-time check: its result depends only on whether the snapshot
file is present and on its current parsed contents, never on the recorded
modification time, so every call reparses the current document. -/
theorem c6_amended (team : String) (f g : SnapshotFile)
    (hp : f.present = g.present) (hb : f.boxes = g.boxes) :
    parse_naver_vote_from_file team f = parse_naver_vote_from_file team g := by
  unfold parse_naver_vote_from_file
  rw [hp, hb]

/-- C6 witness: changing only the modification time changes nothing. -/
theorem c6_amended_witness :
    parse_naver_vote_from_file "LG" snapB = parse_naver_vote_from_file "LG" snapBLater :=
  c6_amended "LG" snapB snapBLater rfl rfl

/-- C8 counterexample: a snapshot whose only box matches the sought team
but has the unparseable percent text "abc". The claim requires the row to
be dropped (result None, no exception); the code raises ValueError from
float(), which propagates to the caller. -/
theorem c8_counterexample :
    extract_naver_block "한화" snapBad
        = Except.error "ValueError: could not convert string to float"
    ∧ extract_naver_block "한화" snapBad ≠ Except.ok none := by
  refine ⟨rfl, fun h => ?_⟩
  have h2 : (Except.error "ValueError: could not convert string to float"
      : Except String (Option FanVote)) = Except.ok none := h
  exact Except.noConfusion h2

/-- C8 amended: a box without exactly two team nodes and two percent nodes
is skipped, and every successfully returned FanVoteRecord is fully
populated from one of the boxes: its team names are the two team texts of
that box and its percentages are the float() values of the two percent
texts; but when the first matching box has an unparseable percent text the
ValueError of float() propagates to the caller instead of the row being
dropped. -/
theorem c8_amended (team : String) (boxes : List MatchBox) (r : FanVote)
    (h : extract_naver_block team boxes = Except.ok (some r)) :
    ∃ b ∈ boxes, ∃ p1 p2,
      boxPair b = some (r.team1, r.team2, p1, p2)
      ∧ parsePercentPy p1 = some r.percent1
      ∧ parsePercentPy p2 = some r.percent2
      ∧ (team = r.team1 ∨ team = r.team2) := by
  induction boxes with
  | nil =>
    rw [extract_naver_block] at h
    exact absurd (Option.noConfusion (Except.ok.inj h)) (fun f => f)
  | cons box rest ih =>
    rw [extract_naver_block] at h
    cases hbp : boxPair box with
    | some tp =>
      obtain ⟨t1, t2, p1, p2⟩ := tp
      rw [hbp] at h
      dsimp only at h
      by_cases hin : team = t1 || team = t2
      · rw [if_pos hin] at h
        cases hp1 : parsePercentPy p1 with
        | none =>
          rw [hp1] at h
          cases hp2 : parsePercentPy p2 <;> rw [hp2] at h <;> exact Except.noConfusion h
        | some q1 =>
          rw [hp1] at h
          cases hp2 : parsePercentPy p2 with
          | none => rw [hp2] at h; exact Except.noConfusion h
          | some q2 =>
            rw [hp2] at h
            have h2 := Option.some.inj (Except.ok.inj h)
            subst h2
            refine ⟨box, List.mem_cons_self _ _, p1, p2, hbp, hp1, hp2, ?_⟩
            rcases Bool.or_eq_true_iff.mp hin with h3 | h3
            · exact Or.inl (of_decide_eq_true h3)
            · exact Or.inr (of_decide_eq_true h3)
      · rw [if_neg hin] at h
        obtain ⟨b, hb, rest⟩ := ih h
        exact ⟨b, List.mem_cons_of_mem _ hb, rest⟩
    | none =>
      rw [hbp] at h
      obtain ⟨b, hb, rest⟩ := ih h
      exact ⟨b, List.mem_cons_of_mem _ hb, rest⟩

/-- C8 witness: the successfully parsed snapshot box yields a fully
populated record whose fields come from that box. -/
theorem c8_amended_witness :
    ∃ b ∈ snapA.boxes, ∃ p1 p2,
      boxPair b = some ("한화", "LG", p1, p2)
      ∧ parsePercentPy p1 = some (mkPercentVal ['6', '0'] [])
      ∧ parsePercentPy p2 = some (mkPercentVal ['4', '0'] [])
      ∧ ("LG" = "한화" ∨ "LG" = "LG") :=
  c8_amended "LG" snapA.boxes
    ⟨"한화", "LG", mkPercentVal ['6', '0'] [], mkPercentVal ['4', '0'] []⟩ rfl

/-- C9 counterexample: the percent regex puts no upper bound on the digits,
so the present value 250 escapes the interval [0, 100] the claim asserts. -/
theorem c9_counterexample :
    extract_percent "250%" = some 250 ∧ ¬((250 : ℚ) ≤ 100) := by
  constructor
  · have h : extract_percent "250%" = some (mkPercentVal ['2', '5', '0'] []) := rfl
    have hd : digitsToNat ['2', '5', '0'] = 250 := rfl
    have hdnil : digitsToNat [] = 0 := rfl
    rw [h]
    simp [mkPercentVal, hd, hdnil]
  · norm_num

/-- C9 amended: every present value of the text or style percent parser
denotes a nonnegative decimal (the regex admits no sign, so values are at
least 0, but it bounds nothing above: values beyond 100 pass through, and
for matched digit runs beyond the double range the float() of the source
even saturates to inf, so finiteness is not asserted); inputs that fail to
parse yield None, never zero. -/
theorem c9_amended (s : String) (q : ℚ) :
    (extract_percent s = some q → 0 ≤ q)
    ∧ (percent_from_style s = some q → 0 ≤ q) :=
  ⟨fun h => extractPercentList_nonneg _ _ h,
   fun h => percentFromStyleList_nonneg _ _ h⟩

/-- C9 witness: the nonnegativity bound applied to a parsed text percent
and a parsed style percent. -/
theorem c9_amended_witness :
    0 ≤ mkPercentVal ['4', '5'] [] ∧ 0 ≤ mkPercentVal ['1', '2'] [] := by
  constructor
  · exact (c9_amended "45%" (mkPercentVal ['4', '5'] [])).1 rfl
  · exact (c9_amended "width: 12%" (mkPercentVal ['1', '2'] [])).2 rfl
